import Mathlib

/-!
Verification of the automated-bio-art-bot repository.

The repository is a Node/Express service that turns a text prompt into a
palette-quantized pixel grid and replays that grid on an external canvas
site.  The source exists in several variants: `src/server.js` (the main
file) and two older variants concatenated in `src/unnamed/part_000`
(called "variant A", lines 1-475, and "variant B", lines 476-859 below).

Shallow embedding conventions:
* JavaScript numbers used as array indices, pixel channels and status
  codes are embedded as `Nat`; signed arithmetic in the color distance is
  embedded as `Int`.
* `colorDistance` in the source returns `Math.sqrt` of an integer sum of
  squares; the loop in `findClosestColor` only compares distances.  Real
  square root is strictly monotone, and at these magnitudes (integers
  below 3 * 255 ^ 2) correctly rounded double `sqrt` preserves strict
  order and equality, so comparing squared distances is an exact model of
  the source's comparisons.
* Network and DOM effects are embedded by passing the observable data
  (HTTP responses per URL, the number of discovered cell / swatch
  controls, button texts) as explicit arguments, and recording the UI
  actions the code would perform as explicit action lists.
-/

/-! ### Color palette and distance model (src/server.js lines 14-48) -/

structure PaletteEntry where
  name : String
  hex : String
  rgb : Nat × Nat × Nat
deriving DecidableEq

def GRID_COLS : Nat := 48

def GRID_ROWS : Nat := 32

/-- The palette of src/server.js (also variant B); index 0 is the white
"erase" background entry.  (Variant A replaces entry 0 by black "empty";
the remaining 11 entries are identical.) -/
def PALETTE : List PaletteEntry :=
  [ ⟨"erase", "#ffffff", (255, 255, 255)⟩,
    ⟨"sfGFP", "#1fea5c", (31, 234, 92)⟩,
    ⟨"mRFP1", "#8f2438", (143, 36, 56)⟩,
    ⟨"mKO2", "#b39223", (179, 146, 35)⟩,
    ⟨"Venus", "#6ad500", (106, 213, 0)⟩,
    ⟨"Azurite", "#3867ae", (56, 103, 174)⟩,
    ⟨"mClover3", "#409945", (64, 153, 69)⟩,
    ⟨"mJuniper", "#1c978d", (28, 151, 141)⟩,
    ⟨"mTurquoise2", "#13AEA7", (19, 174, 167)⟩,
    ⟨"Electra2", "#1C58C6", (28, 88, 198)⟩,
    ⟨"mWasabi", "#009349", (0, 147, 73)⟩,
    ⟨"mScarlet_I", "#b9474b", (185, 71, 75)⟩ ]

/-- Squared Euclidean RGB distance; the source's `colorDistance` is the
real square root of this quantity (see the header comment on why the
squared form is an exact model of the comparisons). -/
def colorDistSq (r1 g1 b1 r2 g2 b2 : Int) : Int :=
  (r1 - r2) ^ 2 + (g1 - g2) ^ 2 + (b1 - b2) ^ 2

/-- Squared distance from channel values (r, g, b) to palette entry `i`
(`PALETTE[i].rgb` in the source; the loop only reads indices below the
palette length, so the default entry is never used). -/
def paletteDistSq (r g b i : Nat) : Nat :=
  let e := PALETTE.getD i ⟨"", "", (0, 0, 0)⟩
  ((colorDistSq r g b e.rgb.1 e.rgb.2.1 e.rgb.2.2)).toNat

/-- One iteration of the `findClosestColor` loop: state is
(closest, minDist), with `none` standing for the initial `Infinity`. -/
def fccStep (r g b : Nat) (st : Nat × Option Nat) (i : Nat) : Nat × Option Nat :=
  let d := paletteDistSq r g b i
  match st.2 with
  | none => (i, some d)
  | some m => if d < m then (i, some d) else st

/-- The `findClosestColor` loop run over palette indices `0, ..., n-1`. -/
def fccLoopN (r g b n : Nat) : Nat × Option Nat :=
  (List.range n).foldl (fccStep r g b) (0, none)

/-- `findClosestColor` of src/server.js lines 39-48 (identical in both
part_000 variants): index of the palette entry at minimum distance,
first match kept on ties (the loop updates only on strict `<`). -/
def findClosestColor (r g b : Nat) : Nat :=
  (fccLoopN r g b PALETTE.length).1

/-! ### Image acquisition: `fetchImage` (src/server.js lines 50-67,
identical in both part_000 variants).

The network is embedded as an explicit map `w` from URL to the observed
`HttpResponse`; relative-URL resolution (`new URL(loc, url).href`) is an
opaque external operation, passed as the function `resolve`. -/

structure HttpResponse where
  statusCode : Nat
  location : Option String
  body : String
deriving DecidableEq

/-- `String.startsWith`, embedded over the character list so that it is
kernel-reducible. -/
def strStartsWith (s pre : String) : Bool :=
  pre.data.isPrefixOf s.data

/-- `fetchImage(url, maxRedirects = 5)`: follows 3xx redirects with a
`location` header (a JS-truthy, i.e. nonempty, header value),
decrementing the budget; rejects with "Too many redirects" when the
budget is exhausted, with "HTTP <code>" on a terminal non-200 status,
and resolves with the body on a terminal 200. -/
def fetchImage (w : String → HttpResponse) (resolve : String → String → String) :
    Nat → String → Except String String
  | 0, _ => Except.error "Too many redirects"
  | m + 1, url =>
    let res := w url
    match res.location with
    | some loc =>
      if 300 ≤ res.statusCode ∧ res.statusCode < 400 ∧ loc ≠ "" then
        fetchImage w resolve m (if strStartsWith loc "http" then loc else resolve loc url)
      else if res.statusCode ≠ 200 then
        Except.error ("HTTP " ++ toString res.statusCode)
      else Except.ok res.body
    | none =>
      if res.statusCode ≠ 200 then
        Except.error ("HTTP " ++ toString res.statusCode)
      else Except.ok res.body

/-! ### Canvas replay: the paint phase of `drawAndPublish`
(src/server.js lines 176-195; part_000 variant A lines 203-234; variant
B lines 616-640 — all three paint loops perform the same actions).

The DOM is embedded by its observable data: `cells` is the number of
checkbox controls found by `page.$$('#grid-container input...')` (the
source addresses them only by index with an existence guard), and
`swatches` the number of `div[role="radio"]` color selectors.  The grid
is read as `grid y x`.  UI interactions are recorded as `UiAction`s. -/

inductive UiAction where
  | selectColor (i : Nat)
  | clickCell (idx : Nat)
deriving DecidableEq

/-- The pixel list built for one color: row-major double loop pushing
`y * GRID_COLS + x` for every cell equal to `colorIdx`. -/
def pixelsFor (grid : Nat → Nat → Nat) (colorIdx : Nat) : List Nat :=
  (List.range GRID_ROWS).flatMap (fun y =>
    (List.range GRID_COLS).flatMap (fun x =>
      if grid y x = colorIdx then [y * GRID_COLS + x] else []))

/-- The action sequence of the paint loop: for `colorIdx` from 1 up to
`PALETTE.length - 1`, skip the color when no pixel uses it, otherwise
click its swatch when present and click each existing cell control. -/
def paintTrace (grid : Nat → Nat → Nat) (cells swatches : Nat) : List UiAction :=
  (List.range' 1 (PALETTE.length - 1)).flatMap (fun colorIdx =>
    let pixels := pixelsFor grid colorIdx
    if pixels = [] then []
    else
      (if colorIdx < swatches then [UiAction.selectColor colorIdx] else []) ++
      pixels.flatMap (fun idx => if idx < cells then [UiAction.clickCell idx] else []))

/-- Variant A's `drawAndPublish` up to the end of the paint phase
(part_000 lines 203-234): it throws "No grid cells found - page may not
have loaded correctly" when cell discovery is empty, before any paint
action. -/
def drawVariantA (grid : Nat → Nat → Nat) (cells swatches : Nat) :
    Except String (List UiAction) :=
  if cells = 0 then
    Except.error "No grid cells found - page may not have loaded correctly"
  else Except.ok (paintTrace grid cells swatches)

/-- src/server.js's `drawAndPublish` up to the end of the paint phase
(lines 176-195): no emptiness check on the discovered cells, the paint
loop runs unconditionally. -/
def drawServerPaint (grid : Nat → Nat → Nat) (cells swatches : Nat) :
    Except String (List UiAction) :=
  Except.ok (paintTrace grid cells swatches)

/-- A grid whose only non-background cell is (0, 0) with color 1. -/
def gridOneCell : Nat → Nat → Nat :=
  fun y x => if y = 0 ∧ x = 0 then 1 else 0

/-! ### Preview renderer: `gridToSvg`
(src/server.js lines 151-162 "server variant": one `<rect>` per cell,
including background cells painted with the palette hex;
part_000 variant A lines 161-177 "variant A": a full-size backdrop rect
filled black, then one `<rect>` per non-background cell only).

The emitted markup is embedded as the list of rect elements with their
attributes; `cellSize` is 10 as in the source. -/

inductive SvgElem where
  | backdrop (fill : String)
  | cell (x y w h : Nat) (fill : String)
deriving DecidableEq

/-- `PALETTE[i].hex` (grid cells always hold indices below the palette
length, so the default is never read on real grids). -/
def paletteHex (i : Nat) : String :=
  (PALETTE.getD i ⟨"", "", (0, 0, 0)⟩).hex

/-- The rect list of src/server.js `gridToSvg`: every cell, background
included, gets a 10 x 10 rect at (x*10, y*10) filled with its palette
hex (background hex is "#ffffff"). -/
def gridToSvgServer (grid : Nat → Nat → Nat) : List SvgElem :=
  (List.range GRID_ROWS).flatMap (fun y =>
    (List.range GRID_COLS).map (fun x =>
      SvgElem.cell (x * 10) (y * 10) 10 10 (paletteHex (grid y x))))

/-- The rect list of variant A's `gridToSvg`: a black backdrop rect,
then a 10 x 10 rect only for each cell with index > 0. -/
def gridToSvgA (grid : Nat → Nat → Nat) : List SvgElem :=
  SvgElem.backdrop "#000000" ::
  (List.range GRID_ROWS).flatMap (fun y =>
    (List.range GRID_COLS).flatMap (fun x =>
      if 0 < grid y x then
        [SvgElem.cell (x * 10) (y * 10) 10 10 (paletteHex (grid y x))]
      else []))

/-- Does an SVG element sit at the cell position (x0, y0)? -/
def atPos (x0 y0 : Nat) : SvgElem → Bool
  | SvgElem.cell ex ey _ _ _ => decide (ex = x0 * 10 ∧ ey = y0 * 10)
  | SvgElem.backdrop _ => false

/-! ### Grid quantizer: `imageToGrid` (src/server.js lines 121-149).

The resampled raster produced by sharp (resize to 48 x 32, fill fit,
lanczos3, median smoothing) is external input; it is embedded as the
flat byte array `data` (a total function on indices, as JS array reads
are) together with the reported channel count. -/

/-- src/server.js `imageToGrid` body after the resize: per cell, read
the three channels at `(y * GRID_COLS + x) * channels`, classify
near-white pixels (all channels > 240) as background 0, all others by
`findClosestColor`. -/
def imageToGrid (data : Nat → Nat) (channels : Nat) : List (List Nat) :=
  (List.range GRID_ROWS).map (fun y =>
    (List.range GRID_COLS).map (fun x =>
      let idx := (y * GRID_COLS + x) * channels
      let r := data idx
      let g := data (idx + 1)
      let b := data (idx + 2)
      if 240 < r ∧ 240 < g ∧ 240 < b then 0
      else findClosestColor r g b))

/-! ### Publish-button selection in `drawAndPublish`.

Buttons are embedded by their document-order list of visible texts; the
returned value is the index of the button the code clicks.  The three
variants differ:
* src/server.js lines 212-216 (also its first publish click, lines
  198-202): scan in document order, click the FIRST button whose text
  includes "Publish", then break.
* part_000 variant A lines 260-265 (modal confirm): filter all matching
  buttons; click the last one when there are several, the single one
  otherwise.
* part_000 variant B lines 670-685 picks the matching button with the
  largest bounding-box y coordinate (not modeled here). -/

/-- Substring test over character lists (JS `String.prototype.includes`),
kernel-reducible. -/
def hasSub (pat : List Char) : List Char → Bool
  | [] => pat.isEmpty
  | c :: t => pat.isPrefixOf (c :: t) || hasSub pat t

/-- `txt.includes('Publish')` of the source. -/
def textIncludesPublish (s : String) : Bool :=
  hasSub "Publish".data s.data

/-- Indices of the buttons whose text includes "Publish", in document
order (`btns.filter(...)` of variant A, with buttons named by index). -/
def publishMatches (texts : List String) : List Nat :=
  (List.range texts.length).filter (fun i => textIncludesPublish (texts.getD i ""))

/-- src/server.js confirm-publish scan: first matching button. -/
def confirmServer (texts : List String) : Option Nat :=
  (List.range texts.length).find? (fun i => textIncludesPublish (texts.getD i ""))

/-- Variant A modal confirm: `pubs[pubs.length - 1]` when more than one
match, `pubs[0]` when exactly one, no click otherwise. -/
def confirmModalA (texts : List String) : Option Nat :=
  if 1 < (publishMatches texts).length then (publishMatches texts).getLast?
  else (publishMatches texts).head?

/-! ### Browser-session release in `drawAndPublish`
(src/server.js lines 164-232; part_000 variant A lines 179-285 and
variant B lines 603-705 have the same shape).

After `puppeteer.launch` succeeds, the source calls
`browser.newPage()` (and in the part_000 variants `setViewport`)
OUTSIDE the try block; the try block runs the replay steps and ends
with `await browser.close(); return ...`, and the catch block runs
`await browser.close(); throw err`.  The model records how many times
`browser.close()` runs on each control path; `env` tells which steps
succeed. -/

inductive DrawStep where
  | newPage
  | goto
  | discover
  | paint
  | publishClick
  | typeTitle
  | modalClick
  | scrape
deriving DecidableEq

/-- The awaited steps inside the try block, in source order. -/
def tryBodySteps : List DrawStep :=
  [DrawStep.goto, DrawStep.discover, DrawStep.paint, DrawStep.publishClick,
   DrawStep.typeTitle, DrawStep.modalClick, DrawStep.scrape]

/-- Run steps in order; the first failing step throws. -/
def runSteps (env : DrawStep → Bool) : List DrawStep → Except String Unit
  | [] => Except.ok ()
  | s :: rest => if env s then runSteps env rest else Except.error "replay step failed"

/-- Control-flow skeleton of `drawAndPublish` after a successful
launch: `newPage` precedes the try block, both try exits close the
browser once, a `newPage` failure propagates without any close.
Returns (number of `browser.close()` calls, outcome). -/
def drawBrowserCloses (env : DrawStep → Bool) : Nat × Except String Unit :=
  if env DrawStep.newPage then
    match runSteps env tryBodySteps with
    | Except.ok _ => (1, Except.ok ())
    | Except.error e => (1, Except.error e)
  else (0, Except.error "newPage failed")

/-- The environment in which only `browser.newPage()` fails. -/
def envNewPageFails : DrawStep → Bool :=
  fun s =>
    match s with
    | DrawStep.newPage => false
    | _ => true

/-! ### Job table and lifecycle
(src/server.js lines 33, 368-419).

Job ids are `Date.now().toString(36)`; the cleanup loop recovers the
creation time via `parseInt(id, 36)`, so ids are embedded directly as
their creation timestamps (Nat).  The JS `Map` is embedded as the
lookup function `Nat → Option Job` (insertion order is never observable
through the routes).  The stored `grid` field is carried unchanged by
every route and is omitted.  Status strings of the source: 'preview'
(the spec's pending), 'processing' (publishing), 'done', 'error'
(failed).  The events are: a `/preview` request at time `t` (which
stores the new job and then evicts entries older than one hour), a
`/publish` request (which sets status 'processing' unconditionally on
the looked-up job), and the background completion callback of
`drawAndPublish` (ok with the scraped url, or the caught error
message). -/

inductive JStatus where
  | preview
  | processing
  | done
  | error
deriving DecidableEq

structure Job where
  status : JStatus
  url : Option String := none
  errMsg : Option String := none
deriving DecidableEq

def JobTable : Type := Nat → Option Job

/-- The retention window of the cleanup loop (`3600000` ms). -/
def RETENTION_MS : Nat := 3600000

/-- `jobs.set(id, j)`. -/
def jobSet (T : JobTable) (id : Nat) (j : Job) : JobTable :=
  fun k => if k = id then some j else T k

/-- In-place mutation of the job object found under `id` (no-op when
absent, mirroring the `if (!job) return` guard and the fact that a
mutation of an evicted job object is unobservable). -/
def jobUpdate (T : JobTable) (id : Nat) (f : Job → Job) : JobTable :=
  fun k => if k = id then (T k).map f else T k

/-- The cleanup loop of `/preview`: delete ids older than the window. -/
def evictOld (now : Nat) (T : JobTable) : JobTable :=
  fun id => if RETENTION_MS < now - id then none else T id

inductive JobEvent where
  | previewReq (t : Nat)
  | publishReq (id : Nat)
  | completion (id : Nat) (result : Except String (Option String))

/-- One observable state change of the job table. -/
def jobStep (T : JobTable) : JobEvent → JobTable
  | JobEvent.previewReq t =>
    evictOld t (jobSet T t { status := JStatus.preview })
  | JobEvent.publishReq id =>
    if (T id).isSome then
      jobUpdate T id (fun j => { j with status := JStatus.processing })
    else T
  | JobEvent.completion id r =>
    match r with
    | Except.ok u =>
      jobUpdate T id (fun j => { j with status := JStatus.done, url := u })
    | Except.error e =>
      jobUpdate T id (fun j => { j with status := JStatus.error, errMsg := some e })

def runJobs (T : JobTable) (es : List JobEvent) : JobTable :=
  es.foldl jobStep T

/-- Forward order of the lifecycle: preview < processing < done/error. -/
def statusRank : JStatus → Nat
  | JStatus.preview => 0
  | JStatus.processing => 1
  | JStatus.done => 2
  | JStatus.error => 2

/-- Well-formed event traces from a table whose clock is `c`: preview
times strictly increase (ids are `Date.now()`), `/publish` only targets
jobs still in their initial state, and completions only target jobs in
'processing' (each publish fires exactly one completion). -/
def goodFrom (c : Nat) (T : JobTable) : List JobEvent → Prop
  | [] => True
  | JobEvent.previewReq t :: rest =>
    c < t ∧ goodFrom t (jobStep T (JobEvent.previewReq t)) rest
  | JobEvent.publishReq id :: rest =>
    (∀ j, T id = some j → j.status = JStatus.preview) ∧
    goodFrom c (jobStep T (JobEvent.publishReq id)) rest
  | JobEvent.completion id r :: rest =>
    (∀ j, T id = some j → j.status = JStatus.processing) ∧
    goodFrom c (jobStep T (JobEvent.completion id r)) rest

/-- The request trace of the C7 counterexample: preview, publish, the
background completion storing the gallery url, then a second publish
for the same job. -/
def cexTrace : List JobEvent :=
  [JobEvent.previewReq 1, JobEvent.publishReq 1,
   JobEvent.completion 1 (Except.ok (some "https://opentrons-art.example/x")),
   JobEvent.publishReq 1]

/-! ### Theorems for claim C1 -/

/-- Loop invariant of `findClosestColor`: after scanning indices below
`n` the state holds the least index attaining the minimum distance. -/
theorem fccLoopN_spec (r g b : Nat) :
    ∀ n, 0 < n → ∃ k m, fccLoopN r g b n = (k, some m) ∧ k < n ∧
      m = paletteDistSq r g b k ∧
      (∀ i, i < n → m ≤ paletteDistSq r g b i) ∧
      (∀ j, j < k → m < paletteDistSq r g b j) := by
  intro n
  induction n with
  | zero => intro h; exact absurd h (by omega)
  | succ n ih =>
    intro _
    by_cases hn : n = 0
    · subst hn
      refine ⟨0, paletteDistSq r g b 0, rfl, by omega, rfl, ?_, by omega⟩
      intro i hi
      have : i = 0 := by omega
      subst this; exact le_refl _
    · obtain ⟨k, m, hfold, hk, hm, hmin, hstrict⟩ := ih (by omega)
      have hstep : fccLoopN r g b (n + 1) = fccStep r g b (fccLoopN r g b n) n := by
        simp [fccLoopN, List.range_succ, List.foldl_append]
      rw [hstep, hfold]
      by_cases hlt : paletteDistSq r g b n < m
      · refine ⟨n, paletteDistSq r g b n, ?_, by omega, rfl, ?_, ?_⟩
        · simp [fccStep, hlt]
        · intro i hi
          rcases Nat.lt_succ_iff_lt_or_eq.mp hi with h | h
          · exact le_of_lt (lt_of_lt_of_le hlt (hmin i h))
          · subst h; exact le_refl _
        · intro j hj
          exact lt_of_lt_of_le hlt (hmin j hj)
      · refine ⟨k, m, ?_, by omega, hm, ?_, hstrict⟩
        · simp [fccStep, hlt]
        · intro i hi
          rcases Nat.lt_succ_iff_lt_or_eq.mp hi with h | h
          · exact hmin i h
          · subst h; omega

/-- C1: for every 8-bit RGB triple, `findClosestColor` returns the index
of the palette entry at minimum Euclidean distance (equivalently minimum
squared distance), and every strictly smaller index has strictly larger
distance, i.e. ties resolve to the lowest index. -/
theorem c1_findClosestColor_nearest (r g b : Nat)
    (_hr : r ≤ 255) (_hg : g ≤ 255) (_hb : b ≤ 255) :
    findClosestColor r g b < PALETTE.length ∧
    (∀ i, i < PALETTE.length →
      paletteDistSq r g b (findClosestColor r g b) ≤ paletteDistSq r g b i) ∧
    (∀ j, j < findClosestColor r g b →
      paletteDistSq r g b (findClosestColor r g b) < paletteDistSq r g b j) := by
  obtain ⟨k, m, hfold, hk, hm, hmin, hstrict⟩ :=
    fccLoopN_spec r g b PALETTE.length (by decide)
  have hfcc : findClosestColor r g b = k := by
    simp [findClosestColor, hfold]
  rw [hfcc]
  exact ⟨hk, fun i hi => hm ▸ hmin i hi, fun j hj => hm ▸ hstrict j hj⟩

/-! ### Theorems for claims C2 and C10 -/

/-- Unfolding `fetchImage` across one redirect hop to an absolute URL. -/
theorem fetchImage_redirect (w : String → HttpResponse)
    (resolve : String → String → String) (m : Nat) (url l b : String) (s : Nat)
    (hw : w url = ⟨s, some l, b⟩) (h3 : 300 ≤ s) (h4 : s < 400)
    (hl : strStartsWith l "http" = true) :
    fetchImage w resolve (m + 1) url = fetchImage w resolve m l := by
  have hne : l ≠ "" := by
    intro h
    subst h
    exact absurd hl (by decide)
  simp only [fetchImage, hw]
  rw [if_pos ⟨h3, h4, hne⟩, if_pos hl]

/-- Unfolding `fetchImage` at a terminal (non-redirect) response. -/
theorem fetchImage_terminal (w : String → HttpResponse)
    (resolve : String → String → String) (m : Nat) (url b : String) (s : Nat)
    (loc : Option String) (hw : w url = ⟨s, loc, b⟩)
    (hnr : ∀ l, loc = some l → ¬(300 ≤ s ∧ s < 400 ∧ l ≠ "")) :
    fetchImage w resolve (m + 1) url =
      if s ≠ 200 then Except.error ("HTTP " ++ toString s) else Except.ok b := by
  simp only [fetchImage, hw]
  cases loc with
  | none => rfl
  | some l => simp [hnr l rfl]

/-- C2: with the default budget of 5, a chain of 3 redirects ending in a
200 resolves with the final body; a chain of 6 redirects rejects with
"Too many redirects"; a terminal 404 rejects with "HTTP 404". -/
theorem c2_fetchImage_chains
    (w1 w2 w3 : String → HttpResponse) (resolve : String → String → String)
    (u0 u1 u2 u3 bodyA : String)
    (v0 v1 v2 v3 v4 v5 v6 : String) (t0 bodyC : String)
    (hA0 : w1 u0 = ⟨302, some u1, ""⟩) (hA1 : w1 u1 = ⟨302, some u2, ""⟩)
    (hA2 : w1 u2 = ⟨302, some u3, ""⟩) (hA3 : w1 u3 = ⟨200, none, bodyA⟩)
    (hA1h : strStartsWith u1 "http" = true)
    (hA2h : strStartsWith u2 "http" = true)
    (hA3h : strStartsWith u3 "http" = true)
    (hB0 : w2 v0 = ⟨302, some v1, ""⟩) (hB1 : w2 v1 = ⟨302, some v2, ""⟩)
    (hB2 : w2 v2 = ⟨302, some v3, ""⟩) (hB3 : w2 v3 = ⟨302, some v4, ""⟩)
    (hB4 : w2 v4 = ⟨302, some v5, ""⟩) (_hB5 : w2 v5 = ⟨302, some v6, ""⟩)
    (hB1h : strStartsWith v1 "http" = true)
    (hB2h : strStartsWith v2 "http" = true)
    (hB3h : strStartsWith v3 "http" = true)
    (hB4h : strStartsWith v4 "http" = true)
    (hB5h : strStartsWith v5 "http" = true)
    (_hB6h : strStartsWith v6 "http" = true)
    (hC : w3 t0 = ⟨404, none, bodyC⟩) :
    fetchImage w1 resolve 5 u0 = Except.ok bodyA ∧
    fetchImage w2 resolve 5 v0 = Except.error "Too many redirects" ∧
    fetchImage w3 resolve 5 t0 = Except.error "HTTP 404" := by
  refine ⟨?_, ?_, ?_⟩
  · rw [show (5 : Nat) = 4 + 1 from rfl,
      fetchImage_redirect w1 resolve 4 u0 u1 "" 302 hA0 (by omega) (by omega) hA1h,
      show (4 : Nat) = 3 + 1 from rfl,
      fetchImage_redirect w1 resolve 3 u1 u2 "" 302 hA1 (by omega) (by omega) hA2h,
      show (3 : Nat) = 2 + 1 from rfl,
      fetchImage_redirect w1 resolve 2 u2 u3 "" 302 hA2 (by omega) (by omega) hA3h,
      show (2 : Nat) = 1 + 1 from rfl,
      fetchImage_terminal w1 resolve 1 u3 bodyA 200 none hA3 (by intro l h; cases h)]
    simp
  · rw [show (5 : Nat) = 4 + 1 from rfl,
      fetchImage_redirect w2 resolve 4 v0 v1 "" 302 hB0 (by omega) (by omega) hB1h,
      show (4 : Nat) = 3 + 1 from rfl,
      fetchImage_redirect w2 resolve 3 v1 v2 "" 302 hB1 (by omega) (by omega) hB2h,
      show (3 : Nat) = 2 + 1 from rfl,
      fetchImage_redirect w2 resolve 2 v2 v3 "" 302 hB2 (by omega) (by omega) hB3h,
      show (2 : Nat) = 1 + 1 from rfl,
      fetchImage_redirect w2 resolve 1 v3 v4 "" 302 hB3 (by omega) (by omega) hB4h,
      show (1 : Nat) = 0 + 1 from rfl,
      fetchImage_redirect w2 resolve 0 v4 v5 "" 302 hB4 (by omega) (by omega) hB5h]
    rfl
  · rw [show (5 : Nat) = 4 + 1 from rfl,
      fetchImage_terminal w3 resolve 4 t0 bodyC 404 none hC (by intro l h; cases h)]
    rfl

/-- Witness for C2: a concrete network with a 3-hop redirect chain, a
6-hop redirect chain, and a terminal 404. -/
theorem c2_witness :
    fetchImage
      (fun u =>
        if u = "http://u0" then ⟨302, some "http://u1", ""⟩
        else if u = "http://u1" then ⟨302, some "http://u2", ""⟩
        else if u = "http://u2" then ⟨302, some "http://u3", ""⟩
        else ⟨200, none, "finalbody"⟩)
      (fun l _ => l) 5 "http://u0" = Except.ok "finalbody" ∧
    fetchImage
      (fun u =>
        if u = "http://v6" then ⟨200, none, "never"⟩
        else ⟨302, some (match u with
          | "http://v0" => "http://v1"
          | "http://v1" => "http://v2"
          | "http://v2" => "http://v3"
          | "http://v3" => "http://v4"
          | "http://v4" => "http://v5"
          | _ => "http://v6"), ""⟩)
      (fun l _ => l) 5 "http://v0" = Except.error "Too many redirects" ∧
    fetchImage (fun _ => ⟨404, none, "nf"⟩) (fun l _ => l) 5 "http://t0" =
      Except.error "HTTP 404" :=
  c2_fetchImage_chains _ _ _ _
    "http://u0" "http://u1" "http://u2" "http://u3" "finalbody"
    "http://v0" "http://v1" "http://v2" "http://v3" "http://v4" "http://v5" "http://v6"
    "http://t0" "nf"
    (by decide) (by decide) (by decide) (by decide)
    (by decide) (by decide) (by decide)
    (by decide) (by decide) (by decide) (by decide) (by decide) (by decide)
    (by decide) (by decide) (by decide) (by decide) (by decide) (by decide)
    (by decide)

/-- C10: any terminal (non-redirect) response whose status is not
exactly 200 is rejected with an "HTTP <status>" error; in particular
2xx statuses other than 200 are rejected. -/
theorem c10_fetchImage_strict_200 (w : String → HttpResponse)
    (resolve : String → String → String) (url b : String) (s : Nat)
    (loc : Option String) (hw : w url = ⟨s, loc, b⟩)
    (hterm : ∀ l, loc = some l → ¬(300 ≤ s ∧ s < 400 ∧ l ≠ ""))
    (hs : s ≠ 200) :
    fetchImage w resolve 5 url = Except.error ("HTTP " ++ toString s) := by
  rw [show (5 : Nat) = 4 + 1 from rfl,
    fetchImage_terminal w resolve 4 url b s loc hw hterm, if_pos hs]

/-- Witness for C10 at the successful-but-not-200 statuses 201, 204 and
206. -/
theorem c10_witness :
    fetchImage (fun _ => ⟨201, none, "x"⟩) (fun l _ => l) 5 "http://a" =
      Except.error ("HTTP " ++ toString 201) ∧
    fetchImage (fun _ => ⟨204, none, "x"⟩) (fun l _ => l) 5 "http://a" =
      Except.error ("HTTP " ++ toString 204) ∧
    fetchImage (fun _ => ⟨206, none, "x"⟩) (fun l _ => l) 5 "http://a" =
      Except.error ("HTTP " ++ toString 206) :=
  ⟨c10_fetchImage_strict_200 _ _ _ "x" 201 none rfl (fun l h => nomatch h) (by decide),
   c10_fetchImage_strict_200 _ _ _ "x" 204 none rfl (fun l h => nomatch h) (by decide),
   c10_fetchImage_strict_200 _ _ _ "x" 206 none rfl (fun l h => nomatch h) (by decide)⟩

/-- Witness for C1 at the concrete pixel (10, 20, 30). -/
theorem c1_witness :
    findClosestColor 10 20 30 < PALETTE.length ∧
    (∀ i, i < PALETTE.length →
      paletteDistSq 10 20 30 (findClosestColor 10 20 30) ≤ paletteDistSq 10 20 30 i) ∧
    (∀ j, j < findClosestColor 10 20 30 →
      paletteDistSq 10 20 30 (findClosestColor 10 20 30) < paletteDistSq 10 20 30 j) :=
  c1_findClosestColor_nearest 10 20 30 (by decide) (by decide) (by decide)

/-! ### Theorems for claims C3 and C4 -/

/-- Congruence for `flatMap` under pointwise equality on members. -/
theorem flatMap_congr_mem {α β : Type} (l : List α) (f g : α → List β)
    (h : ∀ a ∈ l, f a = g a) : l.flatMap f = l.flatMap g := by
  induction l with
  | nil => rfl
  | cons a t ih =>
    rw [List.flatMap_cons, List.flatMap_cons, h a (List.mem_cons_self a t),
      ih (fun x hx => h x (List.mem_cons_of_mem a hx))]

/-- Row-major position arithmetic: recovering the row. -/
theorem rowmajor_div (y x : Nat) (hx : x < GRID_COLS) :
    (y * GRID_COLS + x) / GRID_COLS = y := by
  simp only [GRID_COLS] at hx ⊢
  omega

/-- Row-major position arithmetic: recovering the column. -/
theorem rowmajor_mod (y x : Nat) (hx : x < GRID_COLS) :
    (y * GRID_COLS + x) % GRID_COLS = x := by
  simp only [GRID_COLS] at hx ⊢
  omega

/-- One row of the pixel-collection double loop, as a filter over the
row's flat positions. -/
theorem pixelsFor_row (grid : Nat → Nat → Nat) (c y : Nat) :
    ∀ l : List Nat, (∀ x ∈ l, x < GRID_COLS) →
      l.flatMap (fun x => if grid y x = c then [y * GRID_COLS + x] else [])
        = (l.map (fun x => y * GRID_COLS + x)).filter
            (fun p => decide (grid (p / GRID_COLS) (p % GRID_COLS) = c)) := by
  intro l hl
  induction l with
  | nil => rfl
  | cons a t ih =>
    have ha : a < GRID_COLS := hl a (List.mem_cons_self a t)
    have ht : ∀ x ∈ t, x < GRID_COLS := fun x hx => hl x (List.mem_cons_of_mem a hx)
    rw [List.flatMap_cons, List.map_cons, List.filter_cons, ih ht]
    by_cases hc : grid y a = c <;>
      simp [hc, rowmajor_div y a ha, rowmajor_mod y a ha]

/-- The pixel list of a color is the row-major filter of all flat cell
positions. -/
theorem pixelsFor_eq_filter (grid : Nat → Nat → Nat) (c : Nat) :
    pixelsFor grid c = (List.range (GRID_ROWS * GRID_COLS)).filter
      (fun p => decide (grid (p / GRID_COLS) (p % GRID_COLS) = c)) := by
  have aux : ∀ R : Nat,
      (List.range R).flatMap (fun y =>
        (List.range GRID_COLS).flatMap (fun x =>
          if grid y x = c then [y * GRID_COLS + x] else []))
        = (List.range (R * GRID_COLS)).filter
            (fun p => decide (grid (p / GRID_COLS) (p % GRID_COLS) = c)) := by
    intro R
    induction R with
    | zero => rfl
    | succ R ih =>
      rw [List.range_succ, List.flatMap_append, ih,
        show (R + 1) * GRID_COLS = R * GRID_COLS + GRID_COLS from by ring,
        List.range_add, List.filter_append]
      congr 1
      rw [List.flatMap_cons, List.flatMap_nil, List.append_nil,
        pixelsFor_row grid c R (List.range GRID_COLS)
          (fun x hx => List.mem_range.mp hx)]
  exact aux GRID_ROWS

/-- When every pixel index is below the discovered cell count, the
per-cell existence guard never skips a click. -/
theorem clicks_no_guard (cells : Nat) :
    ∀ l : List Nat, (∀ p ∈ l, p < cells) →
      l.flatMap (fun idx => if idx < cells then [UiAction.clickCell idx] else [])
        = l.map UiAction.clickCell := by
  intro l hl
  induction l with
  | nil => rfl
  | cons a t ih =>
    rw [List.flatMap_cons, if_pos (hl a (List.mem_cons_self a t)), List.map_cons,
      ih (fun x hx => hl x (List.mem_cons_of_mem a hx))]
    rfl

/-- C4: with the full DOM discovered (all 32 x 48 cell controls and all
12 swatches), the paint trace is color-major: non-background palette
indices in ascending order, each contributing its swatch click followed
by the row-major clicks of exactly its cells, with empty colors skipped
entirely; and no click ever targets a background (index 0) cell. -/
theorem c4_paint_color_major (grid : Nat → Nat → Nat) (cells swatches : Nat)
    (hc : GRID_ROWS * GRID_COLS ≤ cells) (hs : PALETTE.length ≤ swatches) :
    (paintTrace grid cells swatches =
      (List.range' 1 (PALETTE.length - 1)).flatMap (fun c =>
        (fun px => if px = [] then [] else UiAction.selectColor c :: px.map UiAction.clickCell)
          ((List.range (GRID_ROWS * GRID_COLS)).filter
            (fun p => decide (grid (p / GRID_COLS) (p % GRID_COLS) = c))))) ∧
    (∀ p, UiAction.clickCell p ∈ paintTrace grid cells swatches →
      grid (p / GRID_COLS) (p % GRID_COLS) ≠ 0) := by
  have hmain : paintTrace grid cells swatches =
      (List.range' 1 (PALETTE.length - 1)).flatMap (fun c =>
        (fun px => if px = [] then [] else UiAction.selectColor c :: px.map UiAction.clickCell)
          ((List.range (GRID_ROWS * GRID_COLS)).filter
            (fun p => decide (grid (p / GRID_COLS) (p % GRID_COLS) = c)))) := by
    unfold paintTrace
    apply flatMap_congr_mem
    intro c hcmem
    have hcrange := List.mem_range'_1.mp hcmem
    have hclt : c < PALETTE.length := by
      have : c < 1 + (PALETTE.length - 1) := hcrange.2
      omega
    rw [pixelsFor_eq_filter]
    by_cases hempty : (List.range (GRID_ROWS * GRID_COLS)).filter
        (fun p => decide (grid (p / GRID_COLS) (p % GRID_COLS) = c)) = []
    · simp [hempty]
    · rw [if_neg hempty]
      simp only
      rw [if_neg hempty, if_pos (lt_of_lt_of_le hclt hs),
        clicks_no_guard cells _ (fun p hp => by
          have := List.mem_range.mp (List.mem_filter.mp hp).1
          omega)]
      rfl
  refine ⟨hmain, ?_⟩
  intro p hp
  rw [hmain] at hp
  obtain ⟨c, hcmem, hpin⟩ := List.mem_flatMap.mp hp
  have hcge : 1 ≤ c := (List.mem_range'_1.mp hcmem).1
  simp only at hpin
  by_cases hempty : (List.range (GRID_ROWS * GRID_COLS)).filter
      (fun p => decide (grid (p / GRID_COLS) (p % GRID_COLS) = c)) = []
  · rw [if_pos hempty] at hpin
    exact absurd hpin (List.not_mem_nil _)
  · rw [if_neg hempty] at hpin
    rcases List.mem_cons.mp hpin with h | h
    · cases h
    · obtain ⟨q, hq, heq⟩ := List.mem_map.mp h
      cases heq
      have := of_decide_eq_true (List.mem_filter.mp hq).2
      omega

/-- Witness for C4 at a concrete grid with the full DOM counts. -/
theorem c4_witness :
    (paintTrace gridOneCell (GRID_ROWS * GRID_COLS) PALETTE.length =
      (List.range' 1 (PALETTE.length - 1)).flatMap (fun c =>
        (fun px => if px = [] then [] else UiAction.selectColor c :: px.map UiAction.clickCell)
          ((List.range (GRID_ROWS * GRID_COLS)).filter
            (fun p => decide (gridOneCell (p / GRID_COLS) (p % GRID_COLS) = c))))) ∧
    (∀ p, UiAction.clickCell p ∈ paintTrace gridOneCell (GRID_ROWS * GRID_COLS) PALETTE.length →
      gridOneCell (p / GRID_COLS) (p % GRID_COLS) ≠ 0) :=
  c4_paint_color_major gridOneCell (GRID_ROWS * GRID_COLS) PALETTE.length
    (le_refl _) (le_refl _)

/-- C3 (amended): variant A's `drawAndPublish` on an empty cell-control
discovery fails with the discovery error before any selector activation
or cell click. -/
theorem c3_variantA_empty_cells_fail (grid : Nat → Nat → Nat) (swatches : Nat) :
    drawVariantA grid 0 swatches =
      Except.error "No grid cells found - page may not have loaded correctly" := rfl

/-- C3 counterexample: src/server.js's `drawAndPublish` has no emptiness
check, so on an empty cell-control discovery with a grid using color 1
it does not fail and still activates that color's selector. -/
theorem c3_counterexample :
    drawServerPaint gridOneCell 0 PALETTE.length =
      Except.ok [UiAction.selectColor 1] := by
  have h1 : pixelsFor gridOneCell 1 = [0] := by decide
  have hother : ∀ c, c < 12 → 2 ≤ c → pixelsFor gridOneCell c = [] := by decide
  show Except.ok (paintTrace gridOneCell 0 PALETTE.length) = _
  unfold paintTrace
  rw [show List.range' 1 (PALETTE.length - 1) = 1 :: List.range' 2 10 from rfl,
    List.flatMap_cons]
  simp only [h1]
  rw [show List.range' 2 10 = [2,3,4,5,6,7,8,9,10,11] from rfl]
  simp [List.flatMap_cons, hother, PALETTE]

/-! ### Theorems for claim C9 -/

/-- `filter` distributes over `flatMap`. -/
theorem filter_flatMap {α β : Type} (l : List α) (f : α → List β) (p : β → Bool) :
    (l.flatMap f).filter p = l.flatMap (fun a => (f a).filter p) := by
  induction l with
  | nil => rfl
  | cons a t ih =>
    rw [List.flatMap_cons, List.flatMap_cons, List.filter_append, ih]

/-- A `flatMap` whose every piece is empty is empty. -/
theorem flatMap_nil_of {α β : Type} (l : List α) (f : α → List β)
    (h : ∀ a ∈ l, f a = []) : l.flatMap f = [] := by
  induction l with
  | nil => rfl
  | cons a t ih =>
    rw [List.flatMap_cons, h a (List.mem_cons_self a t),
      ih (fun x hx => h x (List.mem_cons_of_mem a hx))]
    rfl

/-- A `flatMap` over `range n` whose only nonempty piece is at `y0`
collapses to that piece. -/
theorem flatMap_range_single {β : Type} (f : Nat → List β) :
    ∀ n y0 : Nat, y0 < n → (∀ y, y < n → y ≠ y0 → f y = []) →
      (List.range n).flatMap f = f y0 := by
  intro n
  induction n with
  | zero => intro y0 h; omega
  | succ n ih =>
    intro y0 hy0 hz
    rw [List.range_succ, List.flatMap_append, List.flatMap_cons,
      List.flatMap_nil, List.append_nil]
    by_cases h : y0 = n
    · subst h
      have hpre : (List.range y0).flatMap f = [] := by
        apply flatMap_nil_of
        intro y hy
        have hylt := List.mem_range.mp hy
        exact hz y (by omega) (by omega)
      rw [hpre]
      rfl
    · rw [ih y0 (by omega) (fun y hy1 hy2 => hz y (by omega) hy2),
        hz n (by omega) (fun h' => h h'.symm)]
      exact List.append_nil _

/-- Filtering a mapped `range` by a predicate that holds exactly at
`x0` leaves the single image of `x0`. -/
theorem filter_map_range_single {β : Type} (f : Nat → β) (p : β → Bool) :
    ∀ n x0 : Nat, x0 < n → (∀ x, x < n → p (f x) = decide (x = x0)) →
      ((List.range n).map f).filter p = [f x0] := by
  intro n
  induction n with
  | zero => intro x0 h; omega
  | succ n ih =>
    intro x0 hx0 hp
    rw [List.range_succ, List.map_append, List.filter_append]
    by_cases h : x0 = n
    · subst h
      have hpre : ((List.range x0).map f).filter p = [] := by
        apply List.filter_eq_nil_iff.mpr
        intro e he
        obtain ⟨x, hx, rfl⟩ := List.mem_map.mp he
        have hx' := List.mem_range.mp hx
        rw [hp x (by omega)]
        simp only [decide_eq_true_eq]
        omega
      rw [hpre, List.nil_append, List.map_cons, List.map_nil,
        List.filter_cons_of_pos (by rw [hp x0 (by omega)]; simp)]
      rfl
    · rw [ih x0 (by omega) (fun x hx => hp x (by omega)), List.map_cons,
        List.map_nil, List.filter_cons_of_neg (by
          rw [hp n (by omega)]
          simp only [decide_eq_true_eq]
          omega)]
      rfl

/-- Unfolding `atPos` at a cell element. -/
theorem atPos_cell (x0 y0 ex ey w h : Nat) (s : String) :
    atPos x0 y0 (SvgElem.cell ex ey w h s) = decide (ex = x0 * 10 ∧ ey = y0 * 10) := rfl

/-- `atPos` never matches the backdrop element. -/
theorem atPos_backdrop (x0 y0 : Nat) (s : String) :
    atPos x0 y0 (SvgElem.backdrop s) = false := rfl

/-- C9: at every cell position, the server variant emits exactly one
10 x 10 rect at (x0*10, y0*10) filled with the cell's palette hex (for
background cells this hex is the background color "#ffffff"), and
variant A emits exactly one such rect when the cell is non-background
and none when it is background (only the backdrop covers it). -/
theorem c9_gridToSvg_rects (grid : Nat → Nat → Nat) (x0 y0 : Nat)
    (hx : x0 < GRID_COLS) (hy : y0 < GRID_ROWS) :
    (gridToSvgServer grid).filter (atPos x0 y0)
      = [SvgElem.cell (x0 * 10) (y0 * 10) 10 10 (paletteHex (grid y0 x0))] ∧
    (gridToSvgA grid).filter (atPos x0 y0)
      = (if 0 < grid y0 x0 then
          [SvgElem.cell (x0 * 10) (y0 * 10) 10 10 (paletteHex (grid y0 x0))]
        else []) := by
  constructor
  · unfold gridToSvgServer
    rw [filter_flatMap,
      flatMap_range_single _ GRID_ROWS y0 hy (fun y hy1 hy2 => by
        rw [List.filter_eq_nil_iff]
        intro e he
        obtain ⟨x, hx', rfl⟩ := List.mem_map.mp he
        rw [atPos_cell]
        simp only [decide_eq_true_eq]
        omega),
      filter_map_range_single _ _ GRID_COLS x0 hx (fun x hx' => by
        rw [atPos_cell]
        exact decide_eq_decide.mpr (by omega))]
  · unfold gridToSvgA
    rw [List.filter_cons_of_neg (by rw [atPos_backdrop]; simp), filter_flatMap,
      flatMap_range_single _ GRID_ROWS y0 hy (fun y hy1 hy2 => by
        rw [filter_flatMap]
        apply flatMap_nil_of
        intro x hx'
        by_cases hg : 0 < grid y x
        · rw [if_pos hg, List.filter_cons_of_neg (by
            rw [atPos_cell]
            simp only [decide_eq_true_eq]
            omega)]
          rfl
        · rw [if_neg hg]
          rfl),
      filter_flatMap,
      flatMap_range_single _ GRID_COLS x0 hx (fun x hx1 hx2 => by
        by_cases hg : 0 < grid y0 x
        · rw [if_pos hg, List.filter_cons_of_neg (by
            rw [atPos_cell]
            simp only [decide_eq_true_eq]
            omega)]
          rfl
        · rw [if_neg hg]
          rfl)]
    by_cases hg : 0 < grid y0 x0
    · rw [if_pos hg, List.filter_cons_of_pos (by rw [atPos_cell]; simp)]
      rfl
    · rw [if_neg hg]
      rfl

/-- Witness for C9 at the concrete grid `gridOneCell` and positions. -/
theorem c9_witness :
    ((gridToSvgServer gridOneCell).filter (atPos 5 7)
      = [SvgElem.cell (5 * 10) (7 * 10) 10 10 (paletteHex (gridOneCell 7 5))] ∧
    (gridToSvgA gridOneCell).filter (atPos 5 7)
      = (if 0 < gridOneCell 7 5 then
          [SvgElem.cell (5 * 10) (7 * 10) 10 10 (paletteHex (gridOneCell 7 5))]
        else [])) :=
  c9_gridToSvg_rects gridOneCell 5 7 (by decide) (by decide)

/-! ### Theorems for claim C8 -/

/-- C8: for every input raster, `imageToGrid` returns exactly
`GRID_ROWS` rows of exactly `GRID_COLS` cells, every cell holding a
palette index strictly below the palette length (12). -/
theorem c8_imageToGrid_valid (data : Nat → Nat) (channels : Nat) :
    (imageToGrid data channels).length = GRID_ROWS ∧
    ∀ row ∈ imageToGrid data channels, row.length = GRID_COLS ∧
      ∀ v ∈ row, v < PALETTE.length := by
  have hfcc : ∀ r g b : Nat, findClosestColor r g b < PALETTE.length := by
    intro r g b
    obtain ⟨k, m, hfold, hk, _, _, _⟩ := fccLoopN_spec r g b PALETTE.length (by decide)
    simpa [findClosestColor, hfold] using hk
  refine ⟨by simp [imageToGrid], ?_⟩
  intro row hrow
  obtain ⟨y, hy, rfl⟩ := List.mem_map.mp hrow
  refine ⟨by simp, ?_⟩
  intro v hv
  obtain ⟨x, hx, rfl⟩ := List.mem_map.mp hv
  dsimp only
  by_cases hwhite : 240 < data ((y * GRID_COLS + x) * channels) ∧
      240 < data ((y * GRID_COLS + x) * channels + 1) ∧
      240 < data ((y * GRID_COLS + x) * channels + 2)
  · rw [if_pos hwhite]; decide
  · rw [if_neg hwhite]; exact hfcc _ _ _

/-! ### Theorems for claim C5 -/

/-- In a strictly increasing list, `getLast?` returns a member that
bounds every member from above. -/
theorem pairwise_lt_getLast :
    ∀ l : List Nat, l.Pairwise (fun a b => a < b) →
      ∀ x, l.getLast? = some x → x ∈ l ∧ ∀ j ∈ l, j ≤ x := by
  intro l
  induction l with
  | nil => intro _ x hx; cases hx
  | cons a t ih =>
    intro hl x hx
    cases t with
    | nil =>
      have hxa : x = a := by
        simp only [List.getLast?_singleton] at hx
        exact (Option.some.inj hx).symm
      constructor
      · rw [hxa]
        exact List.mem_cons_self a []
      · intro j hj
        have hja : j = a := by simpa using hj
        omega
    | cons b t2 =>
      have hx' : (b :: t2).getLast? = some x := by
        rw [← hx]; rfl
      obtain ⟨hmem, hmax⟩ := ih (List.Pairwise.of_cons hl) x hx'
      refine ⟨List.mem_cons_of_mem a hmem, ?_⟩
      intro j hj
      rcases List.mem_cons.mp hj with rfl | hj'
      · have := (List.pairwise_cons.mp hl).1 x hmem
        omega
      · exact hmax j hj'

/-- C5 (amended): variant A's modal-confirm step (part_000 lines
260-265), whenever more than one button's text contains "Publish",
clicks a matching button whose index bounds every matching index, i.e.
the last match in document order.  (src/server.js clicks the first
match instead — see the counterexample — and variant B picks the
lowest button on screen by bounding-box y.) -/
theorem c5_confirmModalA_last (texts : List String)
    (h : 1 < (publishMatches texts).length) :
    ∃ i, confirmModalA texts = some i ∧
      textIncludesPublish (texts.getD i "") = true ∧
      ∀ j, j < texts.length → textIncludesPublish (texts.getD j "") = true → j ≤ i := by
  have hne : publishMatches texts ≠ [] := by
    intro hnil
    rw [hnil] at h
    simp at h
  have hsorted : (publishMatches texts).Pairwise (fun a b => a < b) :=
    List.Pairwise.sublist (List.filter_sublist _) (List.pairwise_lt_range _)
  obtain ⟨hmem, hmax⟩ := pairwise_lt_getLast _ hsorted
    ((publishMatches texts).getLast hne) (List.getLast?_eq_getLast _ hne)
  have hmemf := List.mem_filter.mp hmem
  refine ⟨(publishMatches texts).getLast hne, ?_, hmemf.2, ?_⟩
  · unfold confirmModalA
    rw [if_pos h, List.getLast?_eq_getLast _ hne]
  · intro j hj hpj
    exact hmax j (List.mem_filter.mpr ⟨List.mem_range.mpr hj, hpj⟩)

/-- Witness for C5 on a two-button DOM, both labelled "Publish". -/
theorem c5_witness :
    1 < (publishMatches ["Publish", "Publish"]).length ∧
    ∃ i, confirmModalA ["Publish", "Publish"] = some i ∧
      textIncludesPublish (["Publish", "Publish"].getD i "") = true ∧
      ∀ j, j < (["Publish", "Publish"] : List String).length →
        textIncludesPublish (["Publish", "Publish"].getD j "") = true → j ≤ i :=
  ⟨by decide, c5_confirmModalA_last ["Publish", "Publish"] (by decide)⟩

/-- C5 counterexample: with buttons 0 and 2 both containing "Publish",
src/server.js's confirm scan clicks button 0, not the last matching
button (index 2). -/
theorem c5_counterexample :
    confirmServer ["Publish", "Cancel", "Publish"] = some 0 ∧
    (publishMatches ["Publish", "Cancel", "Publish"]).getLast? = some 2 := by
  constructor <;> rfl

/-! ### Theorems for claim C6 -/

/-- C6 (amended): on every path that enters the try block (i.e. once
`browser.newPage()` succeeds), `drawAndPublish` closes the browser
exactly once, whether the replay sequence succeeds or throws. -/
theorem c6_close_once_after_newPage (env : DrawStep → Bool)
    (h : env DrawStep.newPage = true) :
    (drawBrowserCloses env).1 = 1 := by
  unfold drawBrowserCloses
  rw [if_pos h]
  cases runSteps env tryBodySteps with
  | ok v => rfl
  | error e => rfl

/-- Witness for C6 in the all-steps-succeed environment. -/
theorem c6_witness : (drawBrowserCloses (fun _ => true)).1 = 1 :=
  c6_close_once_after_newPage (fun _ => true) rfl

/-- C6 counterexample: when `browser.newPage()` fails — a failure
branch after launch, but before the try block — the call raises without
ever closing the browser (zero close calls), contradicting "released
exactly once on every path after launch". -/
theorem c6_counterexample :
    drawBrowserCloses envNewPageFails = (0, Except.error "newPage failed") := rfl

/-! ### Theorems for claim C7 -/

/-- A `/preview` at time `t` stores the fresh job under its own id. -/
theorem jobStep_preview_self (T : JobTable) (t : Nat) :
    jobStep T (JobEvent.previewReq t) t = some { status := JStatus.preview } := by
  show (if RETENTION_MS < t - t then none
    else (jobSet T t { status := JStatus.preview }) t) = _
  rw [Nat.sub_self, if_neg (by simp [RETENTION_MS])]
  show (if t = t then some { status := JStatus.preview } else T t) = _
  rw [if_pos rfl]

/-- Lookup of another id after a `/preview`: unchanged unless evicted. -/
theorem jobStep_preview_ne (T : JobTable) (t id : Nat) (h : id ≠ t) :
    jobStep T (JobEvent.previewReq t) id =
      if RETENTION_MS < t - id then none else T id := by
  show (if RETENTION_MS < t - id then none
    else (jobSet T t { status := JStatus.preview }) id) = _
  by_cases hev : RETENTION_MS < t - id
  · rw [if_pos hev, if_pos hev]
  · rw [if_neg hev, if_neg hev]
    show (if id = t then _ else T id) = T id
    rw [if_neg h]

/-- Lookup after a `/publish`: the target job's status becomes
'processing'; other entries are untouched. -/
theorem jobStep_publish_lookup (T : JobTable) (pid id : Nat) :
    jobStep T (JobEvent.publishReq pid) id =
      if id = pid then (T id).map (fun j => { j with status := JStatus.processing })
      else T id := by
  by_cases hs : (T pid).isSome
  · show (if (T pid).isSome then jobUpdate T pid _ else T) id = _
    rw [if_pos hs]
    rfl
  · show (if (T pid).isSome then jobUpdate T pid _ else T) id = _
    rw [if_neg hs]
    by_cases hid : id = pid
    · subst hid
      rw [if_pos rfl]
      cases ht : T id with
      | none => rfl
      | some j => exact absurd (by rw [ht]; rfl) hs
    · rw [if_neg hid]

/-- Lookup after a completion callback: the target job becomes 'done'
with the url, or 'error' with the message; other entries untouched. -/
theorem jobStep_completion_lookup (T : JobTable) (cid id : Nat)
    (r : Except String (Option String)) :
    jobStep T (JobEvent.completion cid r) id =
      if id = cid then
        (T id).map (fun j =>
          match r with
          | Except.ok u => { j with status := JStatus.done, url := u }
          | Except.error e => { j with status := JStatus.error, errMsg := some e })
      else T id := by
  cases r with
  | ok u => rfl
  | error e => rfl

/-- A `/preview` at time `t` keeps every surviving id within the
retention window of `t`. -/
theorem keys_after_preview (T : JobTable) (c t : Nat)
    (hk : ∀ id j, T id = some j → id ≤ c) (hct : c < t) :
    ∀ id j, jobStep T (JobEvent.previewReq t) id = some j → id ≤ t := by
  intro id j h
  by_cases hid : id = t
  · omega
  · rw [jobStep_preview_ne T t id hid] at h
    by_cases h1 : RETENTION_MS < t - id
    · rw [if_pos h1] at h
      cases h
    · rw [if_neg h1] at h
      have := hk id j h
      omega

/-- `/publish` introduces no new ids. -/
theorem keys_after_publish (T : JobTable) (c pid : Nat)
    (hk : ∀ id j, T id = some j → id ≤ c) :
    ∀ id j, jobStep T (JobEvent.publishReq pid) id = some j → id ≤ c := by
  intro id j h
  rw [jobStep_publish_lookup] at h
  by_cases h1 : id = pid
  · rw [if_pos h1] at h
    cases ht : T id with
    | none => rw [ht] at h; cases h
    | some j0 => exact hk id j0 ht
  · rw [if_neg h1] at h
    exact hk id j h

/-- Completion callbacks introduce no new ids. -/
theorem keys_after_completion (T : JobTable) (c cid : Nat)
    (r : Except String (Option String))
    (hk : ∀ id j, T id = some j → id ≤ c) :
    ∀ id j, jobStep T (JobEvent.completion cid r) id = some j → id ≤ c := by
  intro id j h
  rw [jobStep_completion_lookup] at h
  by_cases h1 : id = cid
  · rw [if_pos h1] at h
    cases ht : T id with
    | none => rw [ht] at h; cases h
    | some j0 => exact hk id j0 ht
  · rw [if_neg h1] at h
    exact hk id j h

/-- Along a well-formed trace, an id absent from the table (never
created, or evicted) never reappears: later previews carry strictly
larger timestamps. -/
theorem absent_stays (es : List JobEvent) :
    ∀ (c : Nat) (T : JobTable), goodFrom c T es →
      ∀ id, id ≤ c → T id = none → runJobs T es id = none := by
  induction es with
  | nil => intro c T _ id _ habs; exact habs
  | cons e rest ih =>
    intro c T hg id hid habs
    cases e with
    | previewReq t =>
      obtain ⟨hct, hg'⟩ := hg
      refine ih t _ hg' id (by omega) ?_
      rw [jobStep_preview_ne T t id (by omega)]
      split_ifs with h1
      · rfl
      · exact habs
    | publishReq pid =>
      obtain ⟨_, hg'⟩ := hg
      refine ih c _ hg' id hid ?_
      rw [jobStep_publish_lookup]
      split_ifs with h1
      · rw [habs]; rfl
      · exact habs
    | completion cid r =>
      obtain ⟨_, hg'⟩ := hg
      refine ih c _ hg' id hid ?_
      rw [jobStep_completion_lookup]
      split_ifs with h1
      · rw [habs]; rfl
      · exact habs

/-- Along a well-formed trace the status rank of any job present at the
start and at the end never decreases. -/
theorem runJobs_rank_mono (es : List JobEvent) :
    ∀ (c : Nat) (T : JobTable), goodFrom c T es →
      (∀ id j, T id = some j → id ≤ c) →
      ∀ id j j', T id = some j → runJobs T es id = some j' →
        statusRank j.status ≤ statusRank j'.status := by
  induction es with
  | nil =>
    intro c T _ _ id j j' hj hj'
    have h0 : T id = some j' := hj'
    rw [hj] at h0
    rw [Option.some.inj h0]
  | cons e rest ih =>
    intro c T hg hk id j j' hj hj'
    have hj'' : runJobs (jobStep T e) rest id = some j' := hj'
    cases e with
    | previewReq t =>
      obtain ⟨hct, hg'⟩ := hg
      have hidle : id ≤ c := hk id j hj
      have hidne : id ≠ t := by omega
      by_cases hev : RETENTION_MS < t - id
      · have habs : jobStep T (JobEvent.previewReq t) id = none := by
          rw [jobStep_preview_ne T t id hidne, if_pos hev]
        have hnone := absent_stays rest t _ hg' id (by omega) habs
        rw [hnone] at hj''
        cases hj''
      · have hsame : jobStep T (JobEvent.previewReq t) id = some j := by
          rw [jobStep_preview_ne T t id hidne, if_neg hev]
          exact hj
        exact ih t _ hg' (keys_after_preview T c t hk hct) id j j' hsame hj''
    | publishReq pid =>
      obtain ⟨hpre, hg'⟩ := hg
      by_cases hid : id = pid
      · subst hid
        have hjs := hpre j hj
        have hmid : jobStep T (JobEvent.publishReq id) id =
            some { j with status := JStatus.processing } := by
          rw [jobStep_publish_lookup, if_pos rfl, hj]
          rfl
        have hrest := ih c _ hg' (keys_after_publish T c id hk) id _ j' hmid hj''
        have h1 : statusRank j.status = 0 := by rw [hjs]; rfl
        have h2 : statusRank ({ j with status := JStatus.processing } : Job).status = 1 := rfl
        omega
      · have hsame : jobStep T (JobEvent.publishReq pid) id = some j := by
          rw [jobStep_publish_lookup, if_neg hid]
          exact hj
        exact ih c _ hg' (keys_after_publish T c pid hk) id j j' hsame hj''
    | completion cid r =>
      obtain ⟨hpre, hg'⟩ := hg
      by_cases hid : id = cid
      · subst hid
        have hjs := hpre j hj
        have h1 : statusRank j.status = 1 := by rw [hjs]; rfl
        cases r with
        | ok u =>
          have hmid : jobStep T (JobEvent.completion id (Except.ok u)) id =
              some { j with status := JStatus.done, url := u } := by
            rw [jobStep_completion_lookup, if_pos rfl, hj]
            rfl
          have hrest := ih c _ hg'
            (keys_after_completion T c id (Except.ok u) hk) id _ j' hmid hj''
          have h2 : statusRank ({ j with status := JStatus.done, url := u } : Job).status = 2 := rfl
          omega
        | error e =>
          have hmid : jobStep T (JobEvent.completion id (Except.error e)) id =
              some { j with status := JStatus.error, errMsg := some e } := by
            rw [jobStep_completion_lookup, if_pos rfl, hj]
            rfl
          have hrest := ih c _ hg'
            (keys_after_completion T c id (Except.error e) hk) id _ j' hmid hj''
          have h2 : statusRank
              ({ j with status := JStatus.error, errMsg := some e } : Job).status = 2 := rfl
          omega
      · have hsame : jobStep T (JobEvent.completion cid r) id = some j := by
          rw [jobStep_completion_lookup, if_neg hid]
          exact hj
        exact ih c _ hg' (keys_after_completion T c cid r hk) id j j' hsame hj''

/-- The cleanup in `/preview` removes every id outside the retention
window of the request time. -/
theorem preview_evicts (T : JobTable) (t id : Nat)
    (h : RETENTION_MS < t - id) :
    jobStep T (JobEvent.previewReq t) id = none := by
  show (if RETENTION_MS < t - id then none
    else (jobSet T t { status := JStatus.preview }) id) = none
  rw [if_pos h]

/-- C7 (amended): along any request/callback trace in which `/publish`
only targets jobs still in their initial ('preview'/pending) state,
completions only target jobs in 'processing' (publishing), and preview
timestamps strictly increase (as `Date.now()` ids do), every job's
lifecycle status only moves forward in the order
preview → processing → done/error; and the cleanup run by a `/preview`
at time `t` removes exactly the entries older than the one-hour window
(so a job is guaranteed absent only once a later `/preview` has run;
and without the publish precondition a second `/publish` resets a done
job to 'processing' — see the counterexample). -/
theorem c7_job_lifecycle (es : List JobEvent) (c : Nat) (T : JobTable)
    (hg : goodFrom c T es) (hk : ∀ id j, T id = some j → id ≤ c) :
    (∀ id j j', T id = some j → runJobs T es id = some j' →
      statusRank j.status ≤ statusRank j'.status) ∧
    (∀ t id, RETENTION_MS < t - id →
      jobStep T (JobEvent.previewReq t) id = none) :=
  ⟨runJobs_rank_mono es c T hg hk, fun t id h => preview_evicts T t id h⟩

/-- Witness for C7 on the concrete trace preview, publish, completion
from the empty table. -/
theorem c7_witness :
    (∀ id j j', (fun _ => none : JobTable) id = some j →
      runJobs (fun _ => none)
        [JobEvent.previewReq 1, JobEvent.publishReq 1,
         JobEvent.completion 1 (Except.ok (some "u"))] id = some j' →
      statusRank j.status ≤ statusRank j'.status) ∧
    (∀ t id, RETENTION_MS < t - id →
      jobStep (fun _ => none) (JobEvent.previewReq t) id = none) :=
  c7_job_lifecycle
    [JobEvent.previewReq 1, JobEvent.publishReq 1,
     JobEvent.completion 1 (Except.ok (some "u"))]
    0 (fun _ => none)
    (by
      refine ⟨by omega, ?_, ?_, trivial⟩
      · intro j hj
        have h0 : some ({ status := JStatus.preview } : Job) = some j := hj
        rw [← Option.some.inj h0]
      · intro j hj
        have h0 : some ({ status := JStatus.processing } : Job) = some j := hj
        rw [← Option.some.inj h0])
    (fun id j h => nomatch h)

/-- C7 counterexample: on the trace preview, publish, completion(done),
publish — a sequence of requests the routes accept — the job reaches
'done' and then goes BACK to 'processing', because `/publish` sets the
status unconditionally; so the lifecycle does revisit an earlier state,
falsifying the claim as stated. -/
theorem c7_counterexample :
    runJobs (fun _ => none) (cexTrace.take 3) 1 =
      some { status := JStatus.done,
             url := some "https://opentrons-art.example/x", errMsg := none } ∧
    runJobs (fun _ => none) cexTrace 1 =
      some { status := JStatus.processing,
             url := some "https://opentrons-art.example/x", errMsg := none } := by
  constructor <;> rfl
